import Mathlib

/-!
# Verification of the NES PPU core (`src/ppu/mod.rs`)

Shallow embedding of the PPU register file, memory-map dispatcher,
name-table mirroring unit and scanline/frame timing state machine,
translated from `src/ppu/mod.rs`.  Machine integers are modelled as `Nat`
with explicit reductions (`% 256` for `u8`, `% 0x4000` for the masked
14-bit VRAM pointer, `% 65536` for `u16`, `% 2 ^ 64` for `usize`), fixed
Rust arrays as `List Nat`, and fallible operations (Rust `panic!` /
`unimplemented!` / out-of-bounds indexing) as `Option`.

The register sub-module (`src/ppu/registers/*.rs`: `Addr`, `Control`,
`Mask`, `Scroll`, `Status`) is not among the provided sources; those
types are modelled from the specification, as marked on each definition.
-/

set_option maxHeartbeats 1000000

/-- Name-table mirroring mode, supplied once at construction
(`crate::cartridge::Mirroring`, two variants used by the PPU core). -/
inductive Mirroring where
  | horizontal
  | vertical
deriving DecidableEq

/-- Modelled from the spec: the Address Register (`registers/addr.rs` is not
among the provided sources).  A two-byte VRAM pointer written one byte at a
time, with a `write_hi_next` latch; the value is always masked to the valid
bus range (≤ 0x3FFF) after any update. -/
structure Addr where
  value : Nat
  hiNext : Bool
deriving DecidableEq

/-- Modelled from the spec: a fresh address register (zero value, the next
write sets the high byte). -/
def Addr.new : Addr := { value := 0, hiNext := true }

/-- Modelled from the spec: feed one byte into the two-write latch.  The
first call since the last reset sets the high byte (masked to 6 bits to keep
the pointer ≤ 0x3FFF) and flips the latch; the second call sets the low byte
and flips back.  The value is masked to ≤ 0x3FFF after the update. -/
def Addr.update (a : Addr) (b : Nat) : Addr :=
  if a.hiNext then
    { value := (b % 256 % 64 * 256 + a.value % 256) % 0x4000, hiNext := false }
  else
    { value := (a.value / 256 * 256 + b % 256) % 0x4000, hiNext := true }

/-- Modelled from the spec: advance the pointer by the configured step,
masked back into the valid bus range (≤ 0x3FFF). -/
def Addr.increment (a : Addr) (step : Nat) : Addr :=
  { a with value := (a.value + step) % 0x4000 }

/-- Modelled from the spec: `read_status` resets the Address Register's
write latch (the pointer value itself is untouched). -/
def Addr.reset (a : Addr) : Addr := { a with hiNext := true }

/-- Modelled from the spec: read the current 16-bit pointer value. -/
def Addr.get (a : Addr) : Nat := a.value

/-- Modelled from the spec: the Control Register's derived VRAM-address
increment step, 1 or 32 depending on the increment bit (bit 2, pinned by the
source test `test_ppu_vram_reads_step_32`, which sets `0b100`). -/
def Control.vram_addr_increment (c : Nat) : Nat :=
  if c &&& 0x04 ≠ 0 then 32 else 1

/-- Modelled from the spec: the Control Register's interrupt-enable
(vblank NMI) bit, bit 7 of the raw byte. -/
def Control.vblank_nmi (c : Nat) : Bool := c &&& 0x80 ≠ 0

/-- Modelled from the spec: set (bit-or) or clear (bit-and-not) the status
register's vblank bit, bit 7 (pinned by the source test
`test_read_status_resets_vblank`, which checks `status >> 7`). -/
def Status.set_vblank_status (st : Nat) (v : Bool) : Nat :=
  if v then st ||| 0x80 else st &&& 0x7F

/-- Modelled from the spec: set or clear the sprite-zero-hit bit, bit 6. -/
def Status.set_sprite_zero_hit (st : Nat) (v : Bool) : Nat :=
  if v then st ||| 0x40 else st &&& 0xBF

/-- Modelled from the spec: clear the vblank bit. -/
def Status.reset_vblank_status (st : Nat) : Nat := st &&& 0x7F

/-- Modelled from the spec: whether the vblank bit is currently set. -/
def Status.is_in_vblank (st : Nat) : Bool := st &&& 0x80 ≠ 0

/-- Modelled from the spec: the Scroll Register, two scroll-offset bytes with
the same write-twice discipline as the address register (`x` written first),
as an independent latch. -/
structure Scroll where
  x : Nat
  y : Nat
  xNext : Bool
deriving DecidableEq

/-- Modelled from the spec: one scroll write, alternating `x` then `y`. -/
def Scroll.write (sc : Scroll) (b : Nat) : Scroll :=
  if sc.xNext then { sc with x := b % 256, xNext := false }
  else { sc with y := b % 256, xNext := true }

/-- Modelled from the spec: `read_status` resets the scroll write latch. -/
def Scroll.reset_latch (sc : Scroll) : Scroll := { sc with xNext := true }

/-- The PPU state (`struct NESPPU`).  `ctrl`, `mask` and `status` hold the
raw register bytes; fixed arrays are lists (`palette_table`: 32 entries,
`vram`: 2048 entries, `oam_data`: 256 entries in every reachable state). -/
structure NESPPU where
  chr_rom : List Nat
  palette_table : List Nat
  vram : List Nat
  oam_addr : Nat
  oam_data : List Nat
  mirroring : Mirroring
  addr : Addr
  ctrl : Nat
  mask : Nat
  scroll : Scroll
  status : Nat
  nmi_interrupt : Option Bool
  buf : Nat
  scanline : Nat
  cycles : Nat
deriving DecidableEq

/-- `NESPPU::new`: a freshly constructed PPU. -/
def NESPPU.new (chr : List Nat) (m : Mirroring) : NESPPU :=
  { chr_rom := chr
    palette_table := List.replicate 32 0
    vram := List.replicate 2048 0
    oam_addr := 0
    oam_data := List.replicate 256 0
    mirroring := m
    addr := Addr.new
    ctrl := 0
    mask := 0
    scroll := { x := 0, y := 0, xNext := true }
    status := 0
    nmi_interrupt := none
    buf := 0
    scanline := 0
    cycles := 0 }

/-- `NESPPU::new_empty_rom`: a PPU with a zeroed 2048-byte ROM and
horizontal mirroring. -/
def NESPPU.new_empty_rom : NESPPU :=
  NESPPU.new (List.replicate 2048 0) Mirroring.horizontal

/-- `NESPPU::mirror_vram_addr` with the mirroring mode as an explicit
argument (the source reads it from `&self`).  Mirrors 0x3000-0x3EFF down to
0x2000-0x2EFF with the mask `0b10_1111_1111_1111`, converts to a VRAM index
and collapses the four logical name tables to the two physical banks. -/
def mirror_vram_addr (m : Mirroring) (addr : Nat) : Nat :=
  let mirrored_vram := addr &&& 0x2FFF
  let vram_index := mirrored_vram - 0x2000
  let name_table := vram_index / 0x400
  match m, name_table with
  | Mirroring.vertical, 2 => vram_index - 0x800
  | Mirroring.vertical, 3 => vram_index - 0x800
  | Mirroring.horizontal, 2 => vram_index - 0x400
  | Mirroring.horizontal, 1 => vram_index - 0x400
  | Mirroring.horizontal, 3 => vram_index - 0x800
  | _, _ => vram_index

/-- Rust fixed-array store: in bounds it replaces the cell, out of bounds it
panics (modelled as `none`). -/
def setChecked (xs : List Nat) (i v : Nat) : Option (List Nat) :=
  if i < xs.length then some (xs.set i v) else none

/-- `NESPPU::increment_vram_addr`: advance the address register by the
control register's configured step. -/
def NESPPU.increment_vram_addr (s : NESPPU) : NESPPU :=
  { s with addr := s.addr.increment (Control.vram_addr_increment s.ctrl) }

/-- `write_addr`: one byte into the address register's two-write latch. -/
def NESPPU.write_addr (s : NESPPU) (v : Nat) : NESPPU :=
  { s with addr := s.addr.update v }

/-- `write_ctrl`: replace the control register; if the NMI-enable bit rises
while the status register is in vblank, raise the interrupt flag. -/
def NESPPU.write_ctrl (s : NESPPU) (v : Nat) : NESPPU :=
  let start_nmi := Control.vblank_nmi s.ctrl
  let c := v % 256
  { s with
    ctrl := c
    nmi_interrupt :=
      if !start_nmi && Control.vblank_nmi c && Status.is_in_vblank s.status
      then some true else s.nmi_interrupt }

/-- `write_mask`: replace the mask register. -/
def NESPPU.write_mask (s : NESPPU) (v : Nat) : NESPPU :=
  { s with mask := v % 256 }

/-- `write_scroll`: one byte into the scroll register's two-write latch. -/
def NESPPU.write_scroll (s : NESPPU) (v : Nat) : NESPPU :=
  { s with scroll := s.scroll.write v }

/-- `write_oam_addr`: set the sprite-memory pointer. -/
def NESPPU.write_oam_addr (s : NESPPU) (v : Nat) : NESPPU :=
  { s with oam_addr := v % 256 }

/-- `write_oam_data`: store at the pointer, then increment the pointer with
8-bit wraparound. -/
def NESPPU.write_oam_data (s : NESPPU) (v : Nat) : NESPPU :=
  { s with
    oam_data := s.oam_data.set s.oam_addr (v % 256)
    oam_addr := (s.oam_addr + 1) % 256 }

/-- `write_oam_dma`: store each byte of the block via the `write_oam_data`
loop body, the pointer wrapping after each store. -/
def NESPPU.write_oam_dma (s : NESPPU) (d : List Nat) : NESPPU :=
  d.foldl (fun st x => st.write_oam_data x) s

/-- `read_oam_data`: the byte at the current pointer, no pointer advance. -/
def NESPPU.read_oam_data (s : NESPPU) : Nat :=
  s.oam_data.getD s.oam_addr 0

/-- `write_data`: dispatch on the address register's value — pattern-memory
writes are dropped with a diagnostic, 0x2000-0x2FFF goes through the
mirroring unit into VRAM, 0x3000-0x3EFF is `unimplemented!` (`none`), the
four palette-mirror addresses are redirected down 0x10, the rest of
0x3F00-0x3FFF indexes the palette table directly, anything else panics —
then advance the address register by the configured step. -/
def NESPPU.write_data (s : NESPPU) (v : Nat) : Option NESPPU :=
  let addr := s.addr.get
  let dispatched : Option NESPPU :=
    if addr ≤ 0x1FFF then
      some s
    else if addr ≤ 0x2FFF then
      (setChecked s.vram (mirror_vram_addr s.mirroring addr) (v % 256)).map
        fun vr => { s with vram := vr }
    else if addr ≤ 0x3EFF then
      none
    else if addr = 0x3F10 ∨ addr = 0x3F14 ∨ addr = 0x3F18 ∨ addr = 0x3F1C then
      (setChecked s.palette_table (addr - 0x10 - 0x3F00) (v % 256)).map
        fun p => { s with palette_table := p }
    else if addr ≤ 0x3FFF then
      (setChecked s.palette_table (addr - 0x3F00) (v % 256)).map
        fun p => { s with palette_table := p }
    else
      none
  dispatched.map NESPPU.increment_vram_addr

/-- `read_data`: capture the address register's value, advance it by the
configured step, then dispatch — pattern memory and VRAM return the previous
buffered byte and refill the buffer from the captured address,
0x3000-0x3EFF and out-of-range addresses panic (`none`), and the palette
range is returned directly with no buffering delay (note: no mirror
redirect on the read path). -/
def NESPPU.read_data (s : NESPPU) : Option (Nat × NESPPU) :=
  let addr := s.addr.get
  let s1 := s.increment_vram_addr
  if addr ≤ 0x1FFF then
    (s.chr_rom[addr]?).map fun b => (s.buf, { s1 with buf := b })
  else if addr ≤ 0x2FFF then
    (s.vram[mirror_vram_addr s.mirroring addr]?).map
      fun b => (s.buf, { s1 with buf := b })
  else if addr ≤ 0x3EFF then
    none
  else if addr ≤ 0x3FFF then
    (s.palette_table[addr - 0x3F00]?).map fun b => (b, s1)
  else
    none

/-- `read_status`: return the status byte, then clear the vblank bit and
reset both write-twice latches. -/
def NESPPU.read_status (s : NESPPU) : Nat × NESPPU :=
  (s.status,
    { s with
      status := Status.reset_vblank_status s.status
      addr := s.addr.reset
      scroll := s.scroll.reset_latch })

/-- `tick`: add the elapsed (8-bit) cycle count to `cycles` (a `usize`);
below 341 nothing else happens; otherwise roll over one scanline, trigger
vblank at scanline 241, and finish the frame at scanline 262. -/
def NESPPU.tick (s : NESPPU) (cycles : Nat) : Bool × NESPPU :=
  let c := (s.cycles + cycles % 256) % 2 ^ 64
  if c < 341 then
    (false, { s with cycles := c })
  else
    let c2 := c - 341
    let sl := (s.scanline + 1) % 65536
    if sl = 241 then
      (false,
        { s with
          cycles := c2
          scanline := sl
          status :=
            Status.set_sprite_zero_hit
              (Status.set_vblank_status s.status true) false
          nmi_interrupt :=
            if Control.vblank_nmi s.ctrl then some true else s.nmi_interrupt })
    else if 262 ≤ sl then
      (true,
        { s with
          cycles := c2
          scanline := 0
          nmi_interrupt := none
          status :=
            Status.reset_vblank_status
              (Status.set_sprite_zero_hit s.status false) })
    else
      (false, { s with cycles := c2, scanline := sl })

/-- The timing invariant of claim C8: the cycle counter stays below one
scanline's length and the scanline counter below one frame's length. -/
def timing_invariant (s : NESPPU) : Prop :=
  s.cycles < 341 ∧ s.scanline < 262

/-- The memory cell `read_data` uses to refill its internal buffer for a
buffered (pattern-memory or VRAM) read at address `a`: pattern memory below
0x2000, VRAM through the mirroring unit otherwise. -/
def bufSource (s : NESPPU) (a : Nat) : Option Nat :=
  if a ≤ 0x1FFF then s.chr_rom[a]?
  else s.vram[mirror_vram_addr s.mirroring a]?

/-! ## Helper lemmas -/

/-- Evaluating the name-table fold mask `0b10_1111_1111_1111` on the bus
range: bit 13 is kept, bit 12 cleared, low 12 bits kept. -/
theorem land_2FFF_eq (a : Nat) (h1 : 0x2000 ≤ a) (h2 : a < 0x4000) :
    a &&& 0x2FFF = a % 0x1000 + 0x2000 := by
  apply Nat.eq_of_testBit_eq
  intro i
  rcases Nat.lt_or_ge i 14 with hi | hi
  · interval_cases i <;>
      simp only [Nat.testBit_and] <;>
      simp only [Nat.testBit_to_div_mod] <;>
      norm_num <;> omega
  · have hpow : (0x4000 : Nat) ≤ 2 ^ i := by
      calc (0x4000 : Nat) = 2 ^ 14 := by norm_num
        _ ≤ 2 ^ i := Nat.pow_le_pow_right (by norm_num) hi
    have ha : a.testBit i = false :=
      Nat.testBit_lt_two_pow (lt_of_lt_of_le h2 hpow)
    have hb : (a % 0x1000 + 0x2000).testBit i = false :=
      Nat.testBit_lt_two_pow (lt_of_lt_of_le (by omega) hpow)
    simp [Nat.testBit_and, ha, hb]

/-- Clearing bit 12 with the 16-bit mask `~0x1000 = 0xEFFF` agrees with the
source's fold mask on the bus range. -/
theorem land_EFFF_eq (a : Nat) (h1 : 0x2000 ≤ a) (h2 : a < 0x4000) :
    a &&& 0xEFFF = a % 0x1000 + 0x2000 := by
  apply Nat.eq_of_testBit_eq
  intro i
  rcases Nat.lt_or_ge i 14 with hi | hi
  · interval_cases i <;>
      simp only [Nat.testBit_and] <;>
      simp only [Nat.testBit_to_div_mod] <;>
      norm_num <;> omega
  · have hpow : (0x4000 : Nat) ≤ 2 ^ i := by
      calc (0x4000 : Nat) = 2 ^ 14 := by norm_num
        _ ≤ 2 ^ i := Nat.pow_le_pow_right (by norm_num) hi
    have ha : a.testBit i = false :=
      Nat.testBit_lt_two_pow (lt_of_lt_of_le h2 hpow)
    have hb : (a % 0x1000 + 0x2000).testBit i = false :=
      Nat.testBit_lt_two_pow (lt_of_lt_of_le (by omega) hpow)
    simp [Nat.testBit_and, ha, hb]

/-- The mirroring unit always produces an offset inside the 2048-byte VRAM
for a bus address in 0x2000-0x3EFF. -/
theorem mirror_vram_addr_lt (m : Mirroring) (a : Nat)
    (h1 : 0x2000 ≤ a) (h2 : a ≤ 0x3EFF) :
    mirror_vram_addr m a < 2048 := by
  unfold mirror_vram_addr
  dsimp only
  rw [land_2FFF_eq a h1 (by omega)]
  have hidx : a % 0x1000 + 0x2000 - 0x2000 = a % 0x1000 := by omega
  rw [hidx]
  have hr : a % 0x1000 < 0x1000 := Nat.mod_lt _ (by norm_num)
  have ht : a % 0x1000 / 0x400 = 0 ∨ a % 0x1000 / 0x400 = 1 ∨
      a % 0x1000 / 0x400 = 2 ∨ a % 0x1000 / 0x400 = 3 := by omega
  rcases ht with h | h | h | h <;> rw [h] <;> cases m <;> simp <;> omega

/-! ## Claims -/

/-- C3: for every bus address a in 0x2000-0x3EFF the mirroring function
first clears bit 12 of a, computes index = (a & ~0x1000) - 0x2000 and
table = index / 0x400, and returns: under vertical mirroring, index - 0x800
for tables 2 and 3 and index otherwise; under horizontal mirroring,
index - 0x400 for tables 1 and 2, index - 0x800 for table 3, and index for
table 0. -/
theorem C3_mirror_vram_addr_formula (m : Mirroring) (a : Nat)
    (h1 : 0x2000 ≤ a) (h2 : a ≤ 0x3EFF) :
    mirror_vram_addr m a =
      (let index := (a &&& 0xEFFF) - 0x2000
       let table := index / 0x400
       match m with
       | Mirroring.vertical =>
           if table = 2 ∨ table = 3 then index - 0x800 else index
       | Mirroring.horizontal =>
           if table = 1 ∨ table = 2 then index - 0x400
           else if table = 3 then index - 0x800
           else index) := by
  unfold mirror_vram_addr
  dsimp only
  rw [land_2FFF_eq a h1 (by omega), land_EFFF_eq a h1 (by omega)]
  have hidx : a % 0x1000 + 0x2000 - 0x2000 = a % 0x1000 := by omega
  rw [hidx]
  have ht : a % 0x1000 / 0x400 = 0 ∨ a % 0x1000 / 0x400 = 1 ∨
      a % 0x1000 / 0x400 = 2 ∨ a % 0x1000 / 0x400 = 3 := by omega
  rcases ht with h | h | h | h <;> rw [h] <;> cases m <;> norm_num

/-- Witness for C3 at the concrete horizontal-mode address 0x2C05
(table 3, which must subtract 0x800). -/
theorem C3_mirror_vram_addr_formula_witness :
    mirror_vram_addr Mirroring.horizontal 0x2C05 = 0x405 := by
  have h := C3_mirror_vram_addr_formula Mirroring.horizontal 0x2C05
    (by norm_num) (by norm_num)
  rw [h]
  decide

/-- C5: read_status returns the status byte as it was before the call,
clears exactly the vblank bit (bit 7) leaving all other status bits
unchanged, resets the address register's write-twice latch, resets the
scroll register's write-twice latch, and changes no other PPU state. -/
theorem C5_read_status_effects (s : NESPPU) (hb : s.status < 256) :
    (s.read_status).1 = s.status ∧
    (s.read_status).2.status.testBit 7 = false ∧
    (∀ i, i ≠ 7 → (s.read_status).2.status.testBit i = s.status.testBit i) ∧
    (s.read_status).2.addr.hiNext = true ∧
    (s.read_status).2.addr.value = s.addr.value ∧
    (s.read_status).2.scroll.xNext = true ∧
    (s.read_status).2.scroll.x = s.scroll.x ∧
    (s.read_status).2.scroll.y = s.scroll.y ∧
    (s.read_status).2.chr_rom = s.chr_rom ∧
    (s.read_status).2.palette_table = s.palette_table ∧
    (s.read_status).2.vram = s.vram ∧
    (s.read_status).2.oam_addr = s.oam_addr ∧
    (s.read_status).2.oam_data = s.oam_data ∧
    (s.read_status).2.mirroring = s.mirroring ∧
    (s.read_status).2.ctrl = s.ctrl ∧
    (s.read_status).2.mask = s.mask ∧
    (s.read_status).2.nmi_interrupt = s.nmi_interrupt ∧
    (s.read_status).2.buf = s.buf ∧
    (s.read_status).2.scanline = s.scanline ∧
    (s.read_status).2.cycles = s.cycles := by
  refine ⟨rfl, ?_, ?_, rfl, rfl, rfl, rfl, rfl, rfl, rfl, rfl, rfl, rfl,
    rfl, rfl, rfl, rfl, rfl, rfl, rfl⟩
  · show (Status.reset_vblank_status s.status).testBit 7 = false
    have h7 : Nat.testBit 127 7 = false := by decide
    simp [Status.reset_vblank_status, Nat.testBit_and, h7]
  · intro i hi
    show (Status.reset_vblank_status s.status).testBit i = s.status.testBit i
    unfold Status.reset_vblank_status
    simp only [Nat.testBit_and]
    rcases Nat.lt_or_ge i 8 with h8 | h8
    · have h127 : Nat.testBit 127 i = true := by
        interval_cases i <;> first | decide | exact absurd rfl hi
      simp [h127]
    · have hpow : (256 : Nat) ≤ 2 ^ i := by
        calc (256 : Nat) = 2 ^ 8 := by norm_num
          _ ≤ 2 ^ i := Nat.pow_le_pow_right (by norm_num) h8
      have ha : s.status.testBit i = false :=
        Nat.testBit_lt_two_pow (lt_of_lt_of_le hb hpow)
      simp [ha]

/-- C9: a write_data call whose target address lies in the read-only
pattern-memory range 0x0000-0x1FFF leaves pattern memory, internal RAM, the
palette table and sprite memory unchanged (the write is dropped non-fatally)
and still advances the address register by the control register's configured
step, which is 1 or 32, exactly as for an accepted write. -/
theorem C9_chr_write_dropped (s : NESPPU) (v : Nat) (h : s.addr.get ≤ 0x1FFF) :
    s.write_data v =
      some { s with
        addr := s.addr.increment (Control.vram_addr_increment s.ctrl) } ∧
    (Control.vram_addr_increment s.ctrl = 1 ∨
     Control.vram_addr_increment s.ctrl = 32) := by
  constructor
  · unfold NESPPU.write_data
    dsimp only
    rw [if_pos h]
    rfl
  · unfold Control.vram_addr_increment
    by_cases hx : s.ctrl &&& 0x04 ≠ 0
    · right
      rw [if_pos hx]
    · left
      rw [if_neg hx]

/-- Witness for C9: on a fresh PPU (address register 0, step 1) the dropped
write only advances the address register. -/
theorem C9_chr_write_dropped_witness :
    NESPPU.new_empty_rom.write_data 0x66 =
      some { NESPPU.new_empty_rom with
        addr := NESPPU.new_empty_rom.addr.increment
          (Control.vram_addr_increment NESPPU.new_empty_rom.ctrl) } ∧
    (Control.vram_addr_increment NESPPU.new_empty_rom.ctrl = 1 ∨
     Control.vram_addr_increment NESPPU.new_empty_rom.ctrl = 32) :=
  C9_chr_write_dropped NESPPU.new_empty_rom 0x66 (by decide)

/-- C8: (cycles < 341 and scanline < 262) holds of a freshly constructed
PPU and is preserved by tick for every 8-bit elapsed-cycle argument. -/
theorem C8_timing_invariant_preserved :
    (∀ chr m, timing_invariant (NESPPU.new chr m)) ∧
    (∀ s e, timing_invariant s → timing_invariant (s.tick e).2) := by
  constructor
  · intro chr m
    norm_num [timing_invariant, NESPPU.new]
  · rintro s e ⟨hc, hs⟩
    have he : e % 256 < 256 := Nat.mod_lt _ (by norm_num)
    have hlt : s.cycles + e % 256 < 597 := by omega
    have h64 : (597 : Nat) ≤ 2 ^ 64 := by norm_num
    have hmod : (s.cycles + e % 256) % 2 ^ 64 = s.cycles + e % 256 :=
      Nat.mod_eq_of_lt (lt_of_lt_of_le hlt h64)
    have hsl : (s.scanline + 1) % 65536 = s.scanline + 1 :=
      Nat.mod_eq_of_lt (by omega)
    unfold timing_invariant NESPPU.tick
    dsimp only
    rw [hmod]
    by_cases h1 : s.cycles + e % 256 < 341
    · rw [if_pos h1]
      exact ⟨h1, hs⟩
    · rw [if_neg h1]
      rw [hsl]
      by_cases h241 : s.scanline + 1 = 241
      · rw [if_pos h241]
        constructor
        · show s.cycles + e % 256 - 341 < 341
          omega
        · show s.scanline + 1 < 262
          omega
      · rw [if_neg h241]
        by_cases h262 : 262 ≤ s.scanline + 1
        · rw [if_pos h262]
          constructor
          · show s.cycles + e % 256 - 341 < 341
            omega
          · show (0 : Nat) < 262
            norm_num
        · rw [if_neg h262]
          constructor
          · show s.cycles + e % 256 - 341 < 341
            omega
          · show s.scanline + 1 < 262
            omega

/-- Witness for C8: the invariant holds of a fresh PPU and after ticking it
with 100 elapsed cycles. -/
theorem C8_timing_invariant_preserved_witness :
    timing_invariant NESPPU.new_empty_rom ∧
    timing_invariant (NESPPU.new_empty_rom.tick 100).2 := by
  have h0 : timing_invariant NESPPU.new_empty_rom :=
    C8_timing_invariant_preserved.1 (List.replicate 2048 0) Mirroring.horizontal
  exact ⟨h0, C8_timing_invariant_preserved.2 NESPPU.new_empty_rom 100 h0⟩

/-- C6: whenever a tick call carries the scanline counter to exactly 241
(the cycle counter reached 341 and the incremented scanline is 241), it sets
the status vblank bit, clears the sprite-zero-hit bit, raises the interrupt
flag if and only if the control register's interrupt-enable bit is set
(otherwise leaving the flag unchanged), and returns false. -/
theorem C6_tick_vblank_start (s : NESPPU) (e : Nat)
    (h1 : 341 ≤ (s.cycles + e % 256) % 2 ^ 64)
    (h2 : (s.scanline + 1) % 65536 = 241) :
    (s.tick e).1 = false ∧
    (s.tick e).2.status.testBit 7 = true ∧
    (s.tick e).2.status.testBit 6 = false ∧
    (Control.vblank_nmi s.ctrl = true → (s.tick e).2.nmi_interrupt = some true) ∧
    (Control.vblank_nmi s.ctrl = false →
      (s.tick e).2.nmi_interrupt = s.nmi_interrupt) := by
  unfold NESPPU.tick
  dsimp only
  rw [if_neg (by omega), h2, if_pos rfl]
  refine ⟨rfl, ?_, ?_, ?_, ?_⟩
  · show (Status.set_sprite_zero_hit
        (Status.set_vblank_status s.status true) false).testBit 7 = true
    have hb1 : Nat.testBit 0xBF 7 = true := by decide
    have hb2 : Nat.testBit 0x80 7 = true := by decide
    simp [Status.set_sprite_zero_hit, Status.set_vblank_status,
      Nat.testBit_and, Nat.testBit_or, hb1, hb2]
  · show (Status.set_sprite_zero_hit
        (Status.set_vblank_status s.status true) false).testBit 6 = false
    have hb1 : Nat.testBit 0xBF 6 = false := by decide
    simp [Status.set_sprite_zero_hit, Status.set_vblank_status,
      Nat.testBit_and, Nat.testBit_or, hb1]
  · intro hn
    show (if Control.vblank_nmi s.ctrl = true then some true
        else s.nmi_interrupt) = some true
    rw [if_pos hn]
  · intro hn
    show (if Control.vblank_nmi s.ctrl = true then some true
        else s.nmi_interrupt) = s.nmi_interrupt
    rw [if_neg (by simp [hn])]

/-- Witness for C6: a PPU at scanline 240 with 340 cycles and NMI enabled,
ticked by 1 cycle, enters vblank, raises the interrupt and reports no frame
completion. -/
theorem C6_tick_vblank_start_witness :
    ((({ NESPPU.new_empty_rom with
        scanline := 240, cycles := 340, ctrl := 0x80 } : NESPPU).tick 1).1
      = false) ∧
    (({ NESPPU.new_empty_rom with
        scanline := 240, cycles := 340, ctrl := 0x80 } : NESPPU).tick
        1).2.status.testBit 7 = true ∧
    (({ NESPPU.new_empty_rom with
        scanline := 240, cycles := 340, ctrl := 0x80 } : NESPPU).tick
        1).2.nmi_interrupt = some true := by
  have h := C6_tick_vblank_start
    { NESPPU.new_empty_rom with scanline := 240, cycles := 340, ctrl := 0x80 }
    1
    (by show (341 : Nat) ≤ (340 + 1 % 256) % 2 ^ 64; norm_num)
    (by show (240 + 1) % 65536 = 241; norm_num)
  exact ⟨h.1, h.2.1, h.2.2.2.1 (by decide)⟩

/-- C7: tick returns true exactly when the call rolls the cycle counter over
341 and carries the scanline counter to 262 or beyond; in that case it
resets the scanline to 0, clears the interrupt flag, clears the
sprite-zero-hit bit and clears the vblank bit; in every other case it
returns false. -/
theorem C7_tick_frame_complete (s : NESPPU) (e : Nat) :
    ((s.tick e).1 = true ↔
      (341 ≤ (s.cycles + e % 256) % 2 ^ 64 ∧
       262 ≤ (s.scanline + 1) % 65536)) ∧
    ((s.tick e).1 = true →
      ((s.tick e).2.scanline = 0 ∧
       (s.tick e).2.nmi_interrupt = none ∧
       (s.tick e).2.status.testBit 6 = false ∧
       (s.tick e).2.status.testBit 7 = false)) := by
  unfold NESPPU.tick
  dsimp only
  by_cases h1 : (s.cycles + e % 256) % 2 ^ 64 < 341
  · rw [if_pos h1]
    constructor
    · constructor
      · intro h
        simp at h
      · rintro ⟨ha, _⟩
        exact absurd ha (by omega)
    · intro h
      simp at h
  · rw [if_neg h1]
    by_cases h241 : (s.scanline + 1) % 65536 = 241
    · rw [if_pos h241]
      constructor
      · constructor
        · intro h
          simp at h
        · rintro ⟨_, hb⟩
          rw [h241] at hb
          exact absurd hb (by norm_num)
      · intro h
        simp at h
    · rw [if_neg h241]
      by_cases h262 : 262 ≤ (s.scanline + 1) % 65536
      · rw [if_pos h262]
        constructor
        · constructor
          · intro _
            exact ⟨by omega, h262⟩
          · intro _
            rfl
        · intro _
          refine ⟨rfl, rfl, ?_, ?_⟩
          · show (Status.reset_vblank_status
                (Status.set_sprite_zero_hit s.status false)).testBit 6 = false
            have hb1 : Nat.testBit 0xBF 6 = false := by decide
            simp [Status.reset_vblank_status, Status.set_sprite_zero_hit,
              Nat.testBit_and, hb1]
          · show (Status.reset_vblank_status
                (Status.set_sprite_zero_hit s.status false)).testBit 7 = false
            have hb1 : Nat.testBit 0x7F 7 = false := by decide
            simp [Status.reset_vblank_status, Status.set_sprite_zero_hit,
              Nat.testBit_and, hb1]
      · rw [if_neg h262]
        constructor
        · constructor
          · intro h
            simp at h
          · rintro ⟨_, hb⟩
            exact absurd hb h262
        · intro h
          simp at h

/-- Witness for C7: a PPU at scanline 261 with 340 cycles, ticked by 1,
completes the frame, resets the scanline and clears the interrupt flag. -/
theorem C7_tick_frame_complete_witness :
    ((({ NESPPU.new_empty_rom with scanline := 261, cycles := 340 } :
        NESPPU).tick 1).1 = true) ∧
    (({ NESPPU.new_empty_rom with scanline := 261, cycles := 340 } :
        NESPPU).tick 1).2.scanline = 0 ∧
    (({ NESPPU.new_empty_rom with scanline := 261, cycles := 340 } :
        NESPPU).tick 1).2.nmi_interrupt = none := by
  have h := C7_tick_frame_complete
    { NESPPU.new_empty_rom with scanline := 261, cycles := 340 } 1
  have ht := h.1.mpr
    ⟨by show (341 : Nat) ≤ (340 + 1 % 256) % 2 ^ 64; norm_num,
     by show (262 : Nat) ≤ (261 + 1) % 65536; norm_num⟩
  have he := h.2 ht
  exact ⟨ht, he.1, he.2.1⟩


/-- C1 counterexample: write 0x55 via the base address 0x3F00, set the
address register to the mirror address 0x3F10 and read: read_data applies
no mirror redirect and returns palette entry 0x10 (still 0), not 0x55, so
the converse aliasing direction of the claim fails. -/
theorem C1_palette_mirror_counterexample :
    Option.map
      (fun t => Option.map Prod.fst
        (NESPPU.read_data
          { t with addr := { value := 0x3F10, hiNext := true } }))
      (({ NESPPU.new [] Mirroring.horizontal with
          addr := { value := 0x3F00, hiNext := true } } : NESPPU).write_data
        0x55)
      = some (some 0) ∧ (0 : Nat) ≠ 0x55 := by
  constructor
  · decide
  · decide

/-- write_data at one of the four palette-mirror addresses stores the byte
at the mirror target (subtract 0x10) in the palette table and advances the
address register. -/
theorem write_data_palette_mirror (s : NESPPU) (v a : Nat)
    (ha : a = 0x3F10 ∨ a = 0x3F14 ∨ a = 0x3F18 ∨ a = 0x3F1C)
    (hp : s.palette_table.length = 32)
    (haddr : s.addr.get = a) :
    s.write_data v = some
      { s.increment_vram_addr with
        palette_table :=
          s.palette_table.set (a - 0x10 - 0x3F00) (v % 256) } := by
  rcases ha with h | h | h | h <;> subst h <;>
    (unfold NESPPU.write_data
     dsimp only
     rw [haddr]
     rw [if_neg (by norm_num), if_neg (by norm_num), if_neg (by norm_num),
       if_pos (by norm_num)]
     unfold setChecked
     rw [hp]
     rw [if_pos (by norm_num)]
     rfl)

/-- read_data at a palette address returns the palette entry directly, with
the address register advanced and the internal buffer untouched. -/
theorem read_data_palette (s : NESPPU) (r : Nat)
    (h1 : 0x3F00 ≤ s.addr.get) (h2 : s.addr.get ≤ 0x3FFF)
    (hr : s.palette_table[s.addr.get - 0x3F00]? = some r) :
    s.read_data = some (r, s.increment_vram_addr) := by
  unfold NESPPU.read_data
  dsimp only
  rw [if_neg (by omega), if_neg (by omega), if_neg (by omega),
    if_pos h2, hr]
  rfl

/-- C1 (amended): writing v via write_data with the address register at a
mirror address (0x3F10/0x3F14/0x3F18/0x3F1C) and then reading via read_data
with the address register at addr - 0x10 returns v; the converse direction
does not hold, because read_data applies no mirror redirect (a read via the
mirror address returns the palette entry at the mirror's own index). -/
theorem C1_palette_mirror_write_aliasing (s : NESPPU) (v a : Nat)
    (hv : v < 256)
    (ha : a = 0x3F10 ∨ a = 0x3F14 ∨ a = 0x3F18 ∨ a = 0x3F1C)
    (hp : s.palette_table.length = 32)
    (haddr : s.addr.get = a) :
    (s.write_data v).isSome = true ∧
    ∀ s', s.write_data v = some s' →
      Option.map Prod.fst
        (NESPPU.read_data
          { s' with addr := { s'.addr with value := a - 0x10 } })
        = some v := by
  have hw := write_data_palette_mirror s v a ha hp haddr
  have hb1 : (0x3F00 : Nat) ≤ a - 0x10 := by
    rcases ha with h | h | h | h <;> omega
  have hb2 : a - 0x10 ≤ 0x3FFF := by
    rcases ha with h | h | h | h <;> omega
  have hidx : a - 0x10 - 0x3F00 < 32 := by
    rcases ha with h | h | h | h <;> omega
  have hmodv : v % 256 = v := Nat.mod_eq_of_lt hv
  constructor
  · rw [hw]
    rfl
  · intro s' hs'
    rw [hw] at hs'
    injection hs' with h
    subst h
    rw [read_data_palette _ v]
    · rfl
    · exact hb1
    · exact hb2
    · show (s.palette_table.set (a - 0x10 - 0x3F00) (v % 256))[a - 0x10 -
        0x3F00]? = some v
      rw [hmodv]
      exact List.getElem?_set_self (by rw [hp]; exact hidx)

/-- Witness for C1 (amended): on a fresh PPU with the address register at
0x3F10, writing 0x33 and reading back through 0x3F00 yields 0x33. -/
theorem C1_palette_mirror_write_aliasing_witness :
    ((({ NESPPU.new [] Mirroring.horizontal with
        addr := { value := 0x3F10, hiNext := true } } : NESPPU).write_data
        0x33).isSome = true) ∧
    ∀ s', (({ NESPPU.new [] Mirroring.horizontal with
        addr := { value := 0x3F10, hiNext := true } } : NESPPU).write_data
        0x33) = some s' →
      Option.map Prod.fst
        (NESPPU.read_data
          { s' with addr := { s'.addr with value := 0x3F10 - 0x10 } })
        = some 0x33 :=
  C1_palette_mirror_write_aliasing
    { NESPPU.new [] Mirroring.horizontal with
      addr := { value := 0x3F10, hiNext := true } }
    0x33 0x3F10 (by norm_num) (Or.inl rfl) (by decide) rfl

/-- C2 counterexample: with the address register at 0x3F20 — inside the
claimed valid domain (0x0000-0x3FFF outside 0x3000-0x3EFF) and with a full
0x2000-byte pattern memory — both write_data and read_data fail, because
the computed palette index 0x20 is out of bounds of the 32-byte table. -/
theorem C2_totality_counterexample :
    (({ NESPPU.new (List.replicate 0x2000 0) Mirroring.horizontal with
        addr := { value := 0x3F20, hiNext := true } } : NESPPU).write_data 0
      = none) ∧
    (({ NESPPU.new (List.replicate 0x2000 0) Mirroring.horizontal with
        addr := { value := 0x3F20, hiNext := true } } : NESPPU).read_data
      = none) := by
  constructor <;> decide

/-- C2 (amended): write_data and read_data are total for every PPU state
whose pattern memory has at least 0x2000 bytes, whose VRAM has 2048 entries
and palette 32 entries, and whose address register is in 0x0000-0x2FFF or
in 0x3F00-0x3F1F; every index computed into pattern memory, VRAM and the
palette table is then in bounds.  (For 0x3F20-0x3FFF the palette index
addr - 0x3F00 is at least 32 and the operations fail.) -/
theorem C2_totality_amended (s : NESPPU) (v : Nat)
    (hchr : 0x2000 ≤ s.chr_rom.length)
    (hvram : s.vram.length = 2048)
    (hpal : s.palette_table.length = 32)
    (ha : s.addr.get ≤ 0x2FFF ∨
      (0x3F00 ≤ s.addr.get ∧ s.addr.get ≤ 0x3F1F)) :
    (s.write_data v).isSome = true ∧ (s.read_data).isSome = true := by
  rcases ha with hlow | ⟨hp1, hp2⟩
  · by_cases h1 : s.addr.get ≤ 0x1FFF
    · constructor
      · unfold NESPPU.write_data
        dsimp only
        rw [if_pos h1]
        rfl
      · unfold NESPPU.read_data
        dsimp only
        rw [if_pos h1,
          List.getElem?_eq_getElem (by omega : s.addr.get < s.chr_rom.length)]
        rfl
    · have h2 : 0x2000 ≤ s.addr.get := by omega
      have hm : mirror_vram_addr s.mirroring s.addr.get < 2048 :=
        mirror_vram_addr_lt _ _ h2 (by omega)
      constructor
      · unfold NESPPU.write_data
        dsimp only
        rw [if_neg h1, if_pos hlow]
        unfold setChecked
        rw [if_pos (by rw [hvram]; exact hm)]
        rfl
      · unfold NESPPU.read_data
        dsimp only
        rw [if_neg h1, if_pos hlow,
          List.getElem?_eq_getElem
            (by rw [hvram]; exact hm :
              mirror_vram_addr s.mirroring s.addr.get < s.vram.length)]
        rfl
  · constructor
    · by_cases h4 : s.addr.get = 0x3F10 ∨ s.addr.get = 0x3F14 ∨
          s.addr.get = 0x3F18 ∨ s.addr.get = 0x3F1C
      · unfold NESPPU.write_data
        dsimp only
        rw [if_neg (by omega), if_neg (by omega), if_neg (by omega),
          if_pos h4]
        unfold setChecked
        rw [if_pos (by rw [hpal]; omega)]
        rfl
      · unfold NESPPU.write_data
        dsimp only
        rw [if_neg (by omega), if_neg (by omega), if_neg (by omega),
          if_neg h4, if_pos (by omega)]
        unfold setChecked
        rw [if_pos (by rw [hpal]; omega)]
        rfl
    · unfold NESPPU.read_data
      dsimp only
      rw [if_neg (by omega), if_neg (by omega), if_neg (by omega),
        if_pos (by omega),
        List.getElem?_eq_getElem
          (by rw [hpal]; omega : s.addr.get - 0x3F00 < s.palette_table.length)]
      rfl

/-- Witness for C2 (amended): both operations succeed on a fresh PPU with a
full 0x2000-byte pattern memory and the address register at 0. -/
theorem C2_totality_amended_witness :
    ((NESPPU.new (List.replicate 0x2000 0)
        Mirroring.horizontal).write_data 0x66).isSome = true ∧
    ((NESPPU.new (List.replicate 0x2000 0)
        Mirroring.horizontal).read_data).isSome = true :=
  C2_totality_amended
    (NESPPU.new (List.replicate 0x2000 0) Mirroring.horizontal) 0x66
    (by show (0x2000 : Nat) ≤ (List.replicate 0x2000 (0 : Nat)).length
        rw [List.length_replicate])
    (by show (List.replicate 2048 (0 : Nat)).length = 2048
        rw [List.length_replicate])
    (by show (List.replicate 32 (0 : Nat)).length = 32
        rw [List.length_replicate])
    (Or.inl (by decide))

/-- A buffered read (pattern memory or VRAM) returns the previously
buffered byte and refills the buffer from the cell at the pre-increment
address. -/
theorem read_data_buffered (s : NESPPU) (b : Nat)
    (hle : s.addr.get ≤ 0x2FFF)
    (hbs : bufSource s s.addr.get = some b) :
    s.read_data = some (s.buf, { s.increment_vram_addr with buf := b }) := by
  unfold NESPPU.read_data
  unfold bufSource at hbs
  dsimp only
  by_cases h1 : s.addr.get ≤ 0x1FFF
  · rw [if_pos h1] at hbs
    rw [if_pos h1, hbs]
    rfl
  · rw [if_neg h1] at hbs
    rw [if_neg h1, if_pos hle, hbs]
    rfl

/-- C4: for a PPU whose address register is in 0x0000-0x2FFF, read_data
returns the byte buffered before the call and refills the buffer from the
memory cell at the pre-increment address; a fresh instance has buffer 0, so
two consecutive reads yield first the stale buffered byte and then the byte
at the first read's address; palette-range reads return the palette byte
directly with no buffering delay. -/
theorem C4_read_data_buffering (s : NESPPU) :
    (∀ b, s.addr.get ≤ 0x2FFF → bufSource s s.addr.get = some b →
      s.read_data = some (s.buf, { s.increment_vram_addr with buf := b })) ∧
    (∀ chr m, (NESPPU.new chr m).buf = 0) ∧
    (∀ b c, s.addr.get ≤ 0x2FFF → bufSource s s.addr.get = some b →
      s.increment_vram_addr.addr.get ≤ 0x2FFF →
      bufSource s s.increment_vram_addr.addr.get = some c →
      ∃ s1, s.read_data = some (s.buf, s1) ∧
        Option.map Prod.fst s1.read_data = some b) ∧
    (∀ r, 0x3F00 ≤ s.addr.get → s.addr.get ≤ 0x3FFF →
      s.palette_table[s.addr.get - 0x3F00]? = some r →
      s.read_data = some (r, s.increment_vram_addr)) := by
  refine ⟨?_, ?_, ?_, ?_⟩
  · intro b hle hbs
    exact read_data_buffered s b hle hbs
  · intro chr m
    rfl
  · intro b c hle hbs hle2 hbs2
    refine ⟨_, read_data_buffered s b hle hbs, ?_⟩
    rw [read_data_buffered _ c]
    · rfl
    · exact hle2
    · exact hbs2
  · intro r h1 h2 hr
    exact read_data_palette s r h1 h2 hr

/-- Witness for C4: a PPU with a one-byte VRAM holding 9 and the address
register at 0x2000 returns the stale buffer 0 and refills the buffer with
9; a fresh instance has buffer 0. -/
theorem C4_read_data_buffering_witness :
    (∃ s1, ({ NESPPU.new [] Mirroring.horizontal with
        vram := [9],
        addr := { value := 0x2000, hiNext := true } } : NESPPU).read_data
      = some (0, s1) ∧ s1.buf = 9) ∧
    (NESPPU.new [] Mirroring.horizontal).buf = 0 := by
  have h := C4_read_data_buffering
    { NESPPU.new [] Mirroring.horizontal with
      vram := [9], addr := { value := 0x2000, hiNext := true } }
  exact ⟨⟨_, h.1 9 (by decide) (by decide), rfl⟩,
    h.2.1 [] Mirroring.horizontal⟩

/-- One step of the OAM DMA loop. -/
theorem write_oam_dma_cons (s : NESPPU) (x : Nat) (rest : List Nat) :
    s.write_oam_dma (x :: rest) = (s.write_oam_data x).write_oam_dma rest := by
  unfold NESPPU.write_oam_dma
  rw [List.foldl_cons]

/-- Cells that no DMA store targets keep their previous contents. -/
theorem write_oam_dma_untouched (d : List Nat) : ∀ (s : NESPPU) (k : Nat),
    s.oam_addr < 256 →
    (∀ j, j < d.length → (s.oam_addr + j) % 256 ≠ k) →
    (s.write_oam_dma d).oam_data[k]? = s.oam_data[k]? := by
  induction d with
  | nil =>
      intro s k _ _
      rfl
  | cons x rest ih =>
      intro s k hs hk
      have hs' : (s.write_oam_data x).oam_addr < 256 := by
        show (s.oam_addr + 1) % 256 < 256
        exact Nat.mod_lt _ (by norm_num)
      have hk' : ∀ j, j < rest.length →
          ((s.write_oam_data x).oam_addr + j) % 256 ≠ k := by
        intro j hj
        show ((s.oam_addr + 1) % 256 + j) % 256 ≠ k
        have h3 := hk (j + 1) (by simp only [List.length_cons]; omega)
        omega
      rw [write_oam_dma_cons, ih (s.write_oam_data x) k hs' hk']
      show (s.oam_data.set s.oam_addr (x % 256))[k]? = s.oam_data[k]?
      have h0 : s.oam_addr ≠ k := by
        have h3 := hk 0 (by simp)
        omega
      exact List.getElem?_set_ne h0

/-- After a DMA, the cell at (start + i) mod 256 holds the i-th byte of the
transferred block. -/
theorem write_oam_dma_get (d : List Nat) : ∀ (s : NESPPU) (i : Nat),
    s.oam_data.length = 256 → s.oam_addr < 256 → d.length ≤ 256 →
    i < d.length → (∀ x ∈ d, x < 256) →
    (s.write_oam_dma d).oam_data[(s.oam_addr + i) % 256]? = d[i]? := by
  induction d with
  | nil =>
      intro s i _ _ _ hi _
      exact absurd hi (by simp)
  | cons x rest ih =>
      intro s i hlen hs hd hi hbytes
      rw [write_oam_dma_cons]
      have hs' : (s.write_oam_data x).oam_addr < 256 := by
        show (s.oam_addr + 1) % 256 < 256
        exact Nat.mod_lt _ (by norm_num)
      have hlen' : (s.write_oam_data x).oam_data.length = 256 := by
        show (s.oam_data.set s.oam_addr (x % 256)).length = 256
        rw [List.length_set]
        exact hlen
      cases i with
      | zero =>
          have hkp : (s.oam_addr + 0) % 256 = s.oam_addr := by omega
          rw [hkp]
          have hk'' : ∀ j, j < rest.length →
              ((s.write_oam_data x).oam_addr + j) % 256 ≠ s.oam_addr := by
            intro j hj
            show ((s.oam_addr + 1) % 256 + j) % 256 ≠ s.oam_addr
            have hr : rest.length ≤ 255 := by
              simp only [List.length_cons] at hd
              omega
            omega
          rw [write_oam_dma_untouched rest (s.write_oam_data x) s.oam_addr
            hs' hk'']
          show (s.oam_data.set s.oam_addr (x % 256))[s.oam_addr]? =
            (x :: rest)[0]?
          have hx : x % 256 = x := Nat.mod_eq_of_lt (hbytes x (by simp))
          rw [hx, List.getElem?_set_self (by rw [hlen]; exact hs),
            List.getElem?_cons_zero]
      | succ n =>
          have hki : (s.oam_addr + (n + 1)) % 256 =
              ((s.oam_addr + 1) % 256 + n) % 256 := by omega
          rw [hki, List.getElem?_cons_succ]
          exact ih (s.write_oam_data x) n hlen' hs'
            (by simp only [List.length_cons] at hd; omega)
            (by simp only [List.length_cons] at hi; omega)
            (fun y hy => hbytes y (by simp [hy]))

/-- C10: after write_oam_dma with a 256-byte block d starting at pointer p,
sprite memory satisfies oam_data[(p + i) mod 256] = d[i] for all i < 256,
so a DMA starting mid-table wraps around the 256-byte array. -/
theorem C10_oam_dma_wraparound (s : NESPPU) (d : List Nat)
    (hlen : s.oam_data.length = 256) (hp : s.oam_addr < 256)
    (hd : d.length = 256) (hbytes : ∀ x ∈ d, x < 256) :
    ∀ i, i < 256 →
      (s.write_oam_dma d).oam_data[(s.oam_addr + i) % 256]? = d[i]? := by
  intro i hi
  exact write_oam_dma_get d s i hlen hp (by omega) (by omega) hbytes

/-- Witness for C10: DMA of the block [0, 1, ..., 255] starting at pointer
0x10 puts the block's last byte at offset 0x0F (wraparound) and its first
byte at offset 0x10. -/
theorem C10_oam_dma_wraparound_witness :
    ((NESPPU.new_empty_rom.write_oam_addr 0x10).write_oam_dma
        (List.range 256)).oam_data[0x0F]? = (List.range 256)[255]? ∧
    ((NESPPU.new_empty_rom.write_oam_addr 0x10).write_oam_dma
        (List.range 256)).oam_data[0x10]? = (List.range 256)[0]? := by
  have h := C10_oam_dma_wraparound
    (NESPPU.new_empty_rom.write_oam_addr 0x10) (List.range 256)
    (by show (List.replicate 256 (0 : Nat)).length = 256
        rw [List.length_replicate])
    (by show (0x10 : Nat) % 256 < 256
        norm_num)
    (by rw [List.length_range])
    (fun x hx => List.mem_range.mp hx)
  exact ⟨h 255 (by norm_num), h 0 (by norm_num)⟩

/-- Witness for C5: reading the status of a PPU with status byte 0xC0
returns 0xC0, clears the vblank bit and keeps the sprite-zero-hit bit. -/
theorem C5_read_status_effects_witness :
    (({ NESPPU.new_empty_rom with status := 0xC0 } : NESPPU).read_status).1
      = 0xC0 ∧
    (({ NESPPU.new_empty_rom with
        status := 0xC0 } : NESPPU).read_status).2.status.testBit 7 = false ∧
    (({ NESPPU.new_empty_rom with
        status := 0xC0 } : NESPPU).read_status).2.status.testBit 6 = true := by
  have h := C5_read_status_effects
    { NESPPU.new_empty_rom with status := 0xC0 } (by decide)
  refine ⟨h.1, h.2.1, ?_⟩
  rw [h.2.2.1 6 (by norm_num)]
  decide
